import Mathlib

/-!
Verification development for the Tasty-Kitchen auth subsystem.

The repository is an Express/Mongoose HTTP backend in three variants:
the mainline `src/index.js` (bcrypt-hashed passwords, JWT secret from
`process.env.JWT_SECRET`, `Authorization: Bearer <token>` parsing), the
variant `src/unnamed/part_001` (plaintext passwords, hardcoded secret
`secretKey`, raw header used as token) and `src/unnamed/part_000`
(a register middleware signing the raw request payload with hardcoded
secret `MY_SECRET_CODE`).

We shallowly embed the credential store, the signup/login handlers and
the protected-route handler, together with a concrete serialization of
the signed tokens issued by `jsonwebtoken` (payload `{id}`, expiry
`iat + 30d`, a MAC over payload and expiry).  The MAC itself and the
bcrypt hash/compare routines are library black boxes, so they appear as
explicit function parameters; nothing below assumes anything about them
beyond what the code observes (recompute-and-compare equality).
-/

/-! ## Definitions -/

/-! ### Splitting a character list, as JavaScript `String.prototype.split` does

`"a b".split(" ")` yields `["a", "b"]`; with no separator present it
yields the one-element list holding the whole string, and `""` yields
`[""]`.  We model it on `List Char`. -/

def splitChar (c : Char) : List Char → List (List Char)
  | [] => [[]]
  | x :: xs =>
    if x = c then
      [] :: splitChar c xs
    else
      match splitChar c xs with
      | [] => [[x]]
      | y :: ys => (x :: y) :: ys

/-! ### Decimal rendering of naturals -/

def digitChar (d : Nat) : Char := Char.ofNat (48 + d)

def natChars (n : Nat) : List Char :=
  if h : n < 10 then
    [digitChar n]
  else
    natChars (n / 10) ++ [digitChar (n % 10)]
decreasing_by
  exact Nat.div_lt_self (Nat.lt_of_lt_of_le (by decide) (Nat.le_of_not_lt h)) (by decide)

def charToDigit (c : Char) : Nat := c.toNat - 48

def charsToNat (l : List Char) : Nat :=
  l.foldl (fun acc c => acc * 10 + charToDigit c) 0

/-! ### Session tokens

`jsonwebtoken`'s `sign({id}, secret, {expiresIn: "30d"})` produces a
self-contained string carrying the payload field `id`, the expiry
`exp = iat + 30 days` (in seconds), and a MAC computed from the secret
over the payload.  `verify` re-parses the string, recomputes the MAC
with its own secret, compares, and then checks the expiry against the
current clock (`jsonwebtoken` rejects once `now ≥ exp`).  The MAC is a
parameter `Mac`; a token string is the dot-separated rendering of the
two numeric fields followed by the MAC bits. -/

structure Token where
  id : Nat
  exp : Nat
  sig : List Bool
deriving DecidableEq

/-- The HMAC primitive, opaque to the application code: it sees only the
secret and the signed fields and is used by recompute-and-compare. -/
abbrev Mac := String → Nat → Nat → List Bool

def sigChars (sig : List Bool) : List Char :=
  sig.map (fun b => if b then '1' else '0')

def encodeToken (t : Token) : String :=
  ⟨natChars t.id ++ '.' :: (natChars t.exp ++ '.' :: sigChars t.sig)⟩

def decodeToken (s : String) : Option Token :=
  match splitChar '.' s.data with
  | [a, b, c] => some ⟨charsToNat a, charsToNat b, c.map (fun ch => ch == '1')⟩
  | _ => none

/-- 30 days in seconds, the `expiresIn: "30d"` lifetime. -/
def thirtyDays : Nat := 30 * 24 * 60 * 60

/-- `sign({id: uid}, secret, {expiresIn: "30d"})` at clock time `now`. -/
def jwtSign (mac : Mac) (secret : String) (now : Nat) (uid : Nat) : String :=
  encodeToken ⟨uid, now + thirtyDays, mac secret uid (now + thirtyDays)⟩

inductive VerifyErr where
  | invalidSig
  | expired
deriving DecidableEq

/-- `verify(tokenString, secret)` at clock time `now`: parse, recompute
the MAC and compare, then reject if the expiry has passed. -/
def jwtVerify (mac : Mac) (secret : String) (now : Nat) (s : String) :
    Except VerifyErr Nat :=
  match decodeToken s with
  | none => Except.error VerifyErr.invalidSig
  | some t =>
    if t.sig = mac secret t.id t.exp then
      if t.exp ≤ now then Except.error VerifyErr.expired
      else Except.ok t.id
    else Except.error VerifyErr.invalidSig

/-- Flip one bit of a bit string (used for the tampered-signature claim). -/
def flipAt (l : List Bool) (i : Nat) : List Bool :=
  l.set i (!(l.getD i false))

/-! ### Credential store

The `User` Mongoose model: `{username: required unique, password:
required, email: required unique}`.  Records created by signup always
carry all three string fields, with `uid` modelling the store-assigned
`_id`.  `User.findOne({username})` is first-match lookup; `save()`
enforces the two unique indexes, throwing a duplicate-key error that the
handler's `catch` turns into a 500. -/

structure UserRec where
  uid : Nat
  username : String
  password : String
  email : String
deriving DecidableEq

abbrev Store := List UserRec

/-- `User.findOne({username: u})` for a definitely-present string `u`. -/
def findByUsername (s : Store) (u : String) : Option UserRec :=
  s.find? (fun r => r.username == u)

/-- `User.findOne({username})` where the request field may be absent:
Mongoose strips `undefined` values from query filters, so
`findOne({username: undefined})` is `findOne({})` and returns the first
stored document (if any); a present field is an exact-match lookup. -/
def findByUsernameQ (s : Store) (u : Option String) : Option UserRec :=
  match u with
  | none => s.head?
  | some x => findByUsername s x

/-- `new User(...).save()`: succeeds appending the record unless one of
the unique indexes (username, email) is violated, in which case the
store rejects with a duplicate-key error. -/
def saveUser (s : Store) (r : UserRec) : Except Unit Store :=
  if s.any (fun x => x.username == r.username || x.email == r.email) then
    Except.error ()
  else
    Except.ok (s ++ [r])

/-! ### HTTP responses of the auth routes -/

inductive SResp where
  | ok           -- 200 {message: "Signup successful"}
  | userExists   -- 400 {error: "User already exists"}
  | serverError  -- 500 {error: "Something went wrong"}
deriving DecidableEq

def SResp.status : SResp → Nat
  | .ok => 200
  | .userExists => 400
  | .serverError => 500

inductive LResp where
  | ok (token : String)   -- 200 {message: "Login successful", token}
  | invalidCredentials    -- 400 {error: "Invalid credentials"}
deriving DecidableEq

def LResp.status : LResp → Nat
  | .ok _ => 200
  | .invalidCredentials => 400

inductive PResp where
  | tokenMissing        -- 403 {error: "Token missing"}
  | tokenMalformed      -- 403 {error: "Token missing or malformed"}
  | invalidToken        -- 401 {error: "Invalid token"}
  | ok (userId : Nat)   -- 200 {message: "Protected data", userId}
deriving DecidableEq

def PResp.status : PResp → Nat
  | .tokenMissing => 403
  | .tokenMalformed => 403
  | .invalidToken => 401
  | .ok _ => 200

/-! ### Mainline handlers (`src/index.js`) -/

/-- `POST /signup` of `src/index.js`, with each body field possibly
absent.  In source order: `findOne({username})` (400 on a hit), then
`bcrypt.hash(password, 10)` (throws on a missing password, caught as
500), then `new User({username, password: hashed, email}).save()`
(mongoose required-field validation and the unique indexes reject at
save time, caught as 500).  `bhash` is the bcrypt hash evaluated by this
request. -/
def signup (bhash : String → String) (s : Store) (newId : Nat)
    (username password email : Option String) : SResp × Store :=
  match findByUsernameQ s username with
  | some _ => (SResp.userExists, s)
  | none =>
    match password with
    | none => (SResp.serverError, s)
    | some p =>
      let hashed := bhash p
      match username, email with
      | some u, some e =>
        match saveUser s ⟨newId, u, hashed, e⟩ with
        | Except.error _ => (SResp.serverError, s)
        | Except.ok s2 => (SResp.ok, s2)
      | _, _ => (SResp.serverError, s)

/-- `POST /login` of `src/index.js`: `findOne({username})`, then
`bcrypt.compare(password, user.password)`, then
`sign({id: user._id}, secret, {expiresIn: "30d"})`.  Both failure
branches return the same 400 `Invalid credentials` response. -/
def login (bcompare : String → String → Bool) (mac : Mac) (secret : String)
    (now : Nat) (s : Store) (username password : String) : LResp :=
  match findByUsername s username with
  | none => LResp.invalidCredentials
  | some user =>
    if bcompare password user.password then
      LResp.ok (jwtSign mac secret now user.uid)
    else
      LResp.invalidCredentials

/-- JavaScript `h.split(" ")`, lifted to `String`. -/
def jsSplitSpace (h : String) : List String :=
  (splitChar ' ' h.data).map (fun l => String.mk l)

/-- `GET /protected` of `src/index.js`: a missing or empty (falsy)
`authorization` header is 403 `Token missing`; the token is
`authHeader.split(" ")[1]`, and an absent or empty (falsy) entry is 403
`Token missing or malformed`; `verify` failure is 401; success responds
with the decoded `id`. -/
def getProtected (mac : Mac) (secret : String) (now : Nat)
    (authHeader : Option String) : PResp :=
  match authHeader with
  | none => PResp.tokenMissing
  | some h =>
    if h = "" then PResp.tokenMissing
    else
      match (jsSplitSpace h)[1]? with
      | none => PResp.tokenMalformed
      | some tok =>
        if tok = "" then PResp.tokenMalformed
        else
          match jwtVerify mac secret now tok with
          | Except.error _ => PResp.invalidToken
          | Except.ok uid => PResp.ok uid

/-! ### Variant handlers (`src/unnamed/part_001`) -/

/-- `POST /signup` of `src/unnamed/part_001`: identical control flow to
the mainline signup but with no hashing step — the raw password string
is stored as the `password` field. -/
def signupV1 (s : Store) (newId : Nat) (username password email : String) :
    SResp × Store :=
  match findByUsername s username with
  | some _ => (SResp.userExists, s)
  | none =>
    match saveUser s ⟨newId, username, password, email⟩ with
    | Except.error _ => (SResp.serverError, s)
    | Except.ok s2 => (SResp.ok, s2)

/-- `GET /protected` of `src/unnamed/part_001`: the raw `authorization`
header is the token (no `Bearer` scheme), 403 when the header is absent
or falsy, 401 on `verify` failure. -/
def getProtectedV1 (mac : Mac) (secret : String) (now : Nat)
    (authHeader : Option String) : PResp :=
  match authHeader with
  | none => PResp.tokenMissing
  | some h =>
    if h = "" then PResp.tokenMissing
    else
      match jwtVerify mac secret now h with
      | Except.error _ => PResp.invalidToken
      | Except.ok uid => PResp.ok uid

/-! ### Signing-secret provenance

Where each variant's `sign`/`verify` call gets its secret, read off the
call sites: `process.env.JWT_SECRET` in `src/index.js`, the literal
`"secretKey"` in `src/unnamed/part_001`, and the literal
`"MY_SECRET_CODE"` in `src/unnamed/part_000`. -/

inductive SecretSource where
  | env (name : String)      -- read from external configuration at startup
  | literal (value : String) -- a string literal embedded in the source
deriving DecidableEq

def SecretSource.isExternal : SecretSource → Bool
  | .env _ => true
  | .literal _ => false

def mainlineSignSecret : SecretSource := SecretSource.env "JWT_SECRET"

def mainlineVerifySecret : SecretSource := SecretSource.env "JWT_SECRET"

def part001SignSecret : SecretSource := SecretSource.literal "secretKey"

def part001VerifySecret : SecretSource := SecretSource.literal "secretKey"

def part000SignSecret : SecretSource := SecretSource.literal "MY_SECRET_CODE"

/-! ### Concrete instances used by the witness theorems -/

def hashDemo : String → String := fun p => String.append "h:" p

def cmpDemo : String → String → Bool := fun p stored => stored == String.append "h:" p

def macDemo : Mac := fun _ _ _ => [true, false]

def demoUser : UserRec := ⟨7, "alice", "h:pw", "a@x.com"⟩

def demoStore : Store := [demoUser]

/-! ## Helper lemmas -/

theorem splitChar_ne_nil (c : Char) (l : List Char) : splitChar c l ≠ [] := by
  induction l with
  | nil => simp [splitChar]
  | cons x xs ih =>
    by_cases hx : x = c
    · simp [splitChar, hx]
    · cases h : splitChar c xs with
      | nil => simp [splitChar, hx, h]
      | cons y ys => simp [splitChar, hx, h]

theorem splitChar_of_not_mem {c : Char} {l : List Char} (h : c ∉ l) :
    splitChar c l = [l] := by
  induction l with
  | nil => rfl
  | cons x xs ih =>
    have hx : x ≠ c := fun hxc => h (hxc ▸ List.mem_cons_self x xs)
    have hxs : c ∉ xs := fun hc => h (List.mem_cons_of_mem x hc)
    simp [splitChar, hx, ih hxs]

theorem splitChar_append_cons {c : Char} {l : List Char} (r : List Char)
    (h : c ∉ l) : splitChar c (l ++ c :: r) = l :: splitChar c r := by
  induction l with
  | nil => simp [splitChar]
  | cons x xs ih =>
    have hx : x ≠ c := fun hxc => h (hxc ▸ List.mem_cons_self x xs)
    have hxs : c ∉ xs := fun hc => h (List.mem_cons_of_mem x hc)
    have hrec := ih hxs
    simp only [List.cons_append, splitChar, if_neg hx, List.append_eq, hrec]

theorem charToDigit_digitChar {d : Nat} (h : d < 10) :
    charToDigit (digitChar d) = d := by
  interval_cases d <;> decide

theorem natChars_ne_nil (n : Nat) : natChars n ≠ [] := by
  rw [natChars]
  split
  · simp
  · simp

theorem mem_natChars_is_digit (n : Nat) :
    ∀ c ∈ natChars n, c ∈ ['0', '1', '2', '3', '4', '5', '6', '7', '8', '9'] := by
  induction n using Nat.strong_induction_on with
  | _ n ih =>
    intro c hc
    rw [natChars] at hc
    split at hc
    · rename_i h
      simp only [List.mem_singleton] at hc
      subst hc
      interval_cases n <;> decide
    · rename_i h
      rcases List.mem_append.mp hc with h1 | h2
      · exact ih (n / 10)
          (Nat.div_lt_self (Nat.lt_of_lt_of_le (by decide) (Nat.le_of_not_lt h)) (by decide))
          c h1
      · simp only [List.mem_singleton] at h2
        subst h2
        have hm : n % 10 < 10 := Nat.mod_lt _ (by decide)
        generalize hd : n % 10 = d at hm
        interval_cases d <;> decide

theorem space_not_mem_natChars (n : Nat) : ' ' ∉ natChars n := by
  intro h
  have := mem_natChars_is_digit n ' ' h
  simp at this

theorem dot_not_mem_natChars (n : Nat) : '.' ∉ natChars n := by
  intro h
  have := mem_natChars_is_digit n '.' h
  simp at this

theorem foldl_natChars (n : Nat) : ∀ a : Nat,
    (natChars n).foldl (fun acc c => acc * 10 + charToDigit c) a =
      a * 10 ^ (natChars n).length + n := by
  induction n using Nat.strong_induction_on with
  | _ n ih =>
    intro a
    rw [natChars]
    split
    · rename_i h
      simp [List.foldl, charToDigit_digitChar h]
    · rename_i h
      have hlt : n / 10 < n :=
        Nat.div_lt_self (Nat.lt_of_lt_of_le (by decide) (Nat.le_of_not_lt h)) (by decide)
      have hm : n % 10 < 10 := Nat.mod_lt _ (by decide)
      rw [List.foldl_append, ih (n / 10) hlt a]
      simp only [List.foldl, charToDigit_digitChar hm, List.length_append,
        List.length_singleton]
      rw [Nat.pow_succ]
      calc (a * 10 ^ (natChars (n / 10)).length + n / 10) * 10 + n % 10
          = a * (10 ^ (natChars (n / 10)).length * 10) + (10 * (n / 10) + n % 10) := by ring
        _ = a * (10 ^ (natChars (n / 10)).length * 10) + n := by
            rw [Nat.div_add_mod]

theorem charsToNat_natChars (n : Nat) : charsToNat (natChars n) = n := by
  unfold charsToNat
  rw [foldl_natChars]
  simp

theorem dot_not_mem_sigChars (sig : List Bool) : '.' ∉ sigChars sig := by
  intro h
  rcases List.mem_map.mp h with ⟨b, _, hb⟩
  cases b <;> simp at hb

theorem space_not_mem_sigChars (sig : List Bool) : ' ' ∉ sigChars sig := by
  intro h
  rcases List.mem_map.mp h with ⟨b, _, hb⟩
  cases b <;> simp at hb

theorem map_sigChars (sig : List Bool) :
    (sigChars sig).map (fun ch => ch == '1') = sig := by
  induction sig with
  | nil => rfl
  | cons b bs ih => cases b <;> simp [sigChars] at ih ⊢ <;> exact ih

theorem decodeToken_encodeToken (t : Token) :
    decodeToken (encodeToken t) = some t := by
  obtain ⟨i, e, sg⟩ := t
  unfold decodeToken encodeToken
  simp only
  rw [splitChar_append_cons _ (dot_not_mem_natChars i),
    splitChar_append_cons _ (dot_not_mem_natChars e),
    splitChar_of_not_mem (dot_not_mem_sigChars sg)]
  simp [charsToNat_natChars, map_sigChars]

theorem encodeToken_ne_empty (t : Token) : encodeToken t ≠ "" := by
  unfold encodeToken
  intro h
  have hdata : natChars t.id ++ '.' :: (natChars t.exp ++ '.' :: sigChars t.sig) =
      ([] : List Char) := congrArg String.data h
  cases hnat : natChars t.id with
  | nil => exact natChars_ne_nil t.id hnat
  | cons x xs => rw [hnat] at hdata; simp at hdata

theorem space_not_mem_encodeToken (t : Token) : ' ' ∉ (encodeToken t).data := by
  unfold encodeToken
  intro h
  simp only [List.mem_append, List.mem_cons] at h
  rcases h with h1 | h2 | h3
  · exact space_not_mem_natChars t.id h1
  · simp at h2
  · rcases h3 with h4 | h5 | h6
    · exact space_not_mem_natChars t.exp h4
    · simp at h5
    · exact space_not_mem_sigChars t.sig h6

theorem flipAt_ne {l : List Bool} {i : Nat} (h : i < l.length) :
    flipAt l i ≠ l := by
  induction l generalizing i with
  | nil => simp at h
  | cons x xs ih =>
    cases i with
    | zero =>
      simp only [flipAt, List.set, List.getD, List.get?, ne_eq, List.cons.injEq, not_and]
      intro hx
      cases x <;> simp_all
    | succ j =>
      have hj : j < xs.length := Nat.lt_of_succ_lt_succ h
      simp only [flipAt, List.set, List.getD_cons_succ, ne_eq, List.cons.injEq, not_and]
      intro _
      exact ih hj

theorem findByUsername_eq_none_iff (s : Store) (u : String) :
    findByUsername s u = none ↔ ∀ r ∈ s, r.username ≠ u := by
  unfold findByUsername
  rw [List.find?_eq_none]
  simp

theorem saveUser_ok (s : Store) (r : UserRec)
    (h1 : ∀ x ∈ s, x.username ≠ r.username)
    (h2 : ∀ x ∈ s, x.email ≠ r.email) :
    saveUser s r = Except.ok (s ++ [r]) := by
  unfold saveUser
  rw [if_neg]
  intro hany
  rcases List.any_eq_true.mp hany with ⟨x, hx, hor⟩
  have hor2 : x.username = r.username ∨ x.email = r.email := by
    simpa using hor
  rcases hor2 with hb | hb
  · exact h1 x hx hb
  · exact h2 x hx hb

theorem saveUser_error (s : Store) (r : UserRec)
    (h : ∃ x ∈ s, x.username = r.username ∨ x.email = r.email) :
    saveUser s r = Except.error () := by
  unfold saveUser
  rw [if_pos]
  rcases h with ⟨x, hx, hor⟩
  refine List.any_eq_true.mpr ⟨x, hx, ?_⟩
  rcases hor with hb | hb
  · simp [hb]
  · simp [hb]

theorem findByUsername_append_last (s : Store) (r : UserRec)
    (hu : findByUsername s r.username = none) :
    findByUsername (s ++ [r]) r.username = some r := by
  unfold findByUsername at hu ⊢
  induction s with
  | nil => simp [List.find?]
  | cons x xs ih =>
    rw [List.find?_cons] at hu
    rw [List.cons_append, List.find?_cons]
    cases hx : (x.username == r.username) with
    | true => rw [hx] at hu; simp at hu
    | false =>
      rw [hx] at hu
      simp only [hx]
      exact ih hu

theorem string_data_append (a b : String) :
    (String.append a b).data = a.data ++ b.data := by
  cases a
  cases b
  rfl

theorem jsSplitSpace_bearer (tok : String) (h : ' ' ∉ tok.data) :
    jsSplitSpace (String.append "Bearer " tok) = ["Bearer", tok] := by
  unfold jsSplitSpace
  rw [string_data_append]
  have hdata : ("Bearer " : String).data =
      ['B', 'e', 'a', 'r', 'e', 'r'] ++ ' ' :: ([] : List Char) := by decide
  rw [hdata, List.append_assoc, List.singleton_append]
  rw [splitChar_append_cons _ (by decide)]
  rw [splitChar_of_not_mem h]
  rfl

theorem bearer_ne_empty (tok : String) : String.append "Bearer " tok ≠ "" := by
  intro h
  have hdata := congrArg String.data h
  rw [string_data_append] at hdata
  have : ("Bearer " : String).data = 'B' :: "earer ".data := by decide
  rw [this] at hdata
  simp at hdata

theorem jwtVerify_jwtSign (mac : Mac) (secret : String) (now uid : Nat) :
    jwtVerify mac secret now (jwtSign mac secret now uid) = Except.ok uid := by
  unfold jwtVerify jwtSign
  rw [decodeToken_encodeToken]
  have hexp : ¬ (now + thirtyDays ≤ now) := by
    unfold thirtyDays
    omega
  simp [hexp]

theorem getProtected_bearer (mac : Mac) (secret : String) (now : Nat)
    (tok : String) (hs : ' ' ∉ tok.data) (hne : tok ≠ "") :
    getProtected mac secret now (some (String.append "Bearer " tok)) =
      match jwtVerify mac secret now tok with
      | Except.error _ => PResp.invalidToken
      | Except.ok uid => PResp.ok uid := by
  simp only [getProtected, if_neg (bearer_ne_empty tok), jsSplitSpace_bearer tok hs,
    List.getElem?_cons_succ, List.getElem?_cons_zero, if_neg hne]

theorem getProtected_nospace (mac : Mac) (secret : String) (now : Nat)
    (h : String) (hne : h ≠ "") (hs : ' ' ∉ h.data) :
    getProtected mac secret now (some h) = PResp.tokenMalformed := by
  have hsplit : jsSplitSpace h = [h] := by
    unfold jsSplitSpace
    rw [splitChar_of_not_mem hs]
    rfl
  simp only [getProtected, if_neg hne, hsplit, List.getElem?_cons_zero,
    List.getElem?_nil]
  rfl

/-! ## Claims -/

/-- C1: for every (username, password) pair submitted to login, login
succeeds (returns a token) iff the submitted password hash-verifies
against the stored password hash for that username; in every other case
(username absent, or hash mismatch) the result is the single 400
`Invalid credentials` response, identical for the two causes. -/
theorem C1_login_success_iff_verify
    (bcompare : String → String → Bool) (mac : Mac) (secret : String)
    (now : Nat) (s : Store) (username password : String) :
    ((∃ tk, login bcompare mac secret now s username password = LResp.ok tk) ↔
      (∃ u, findByUsername s username = some u ∧
        bcompare password u.password = true)) ∧
    ((¬ ∃ u, findByUsername s username = some u ∧
        bcompare password u.password = true) →
      login bcompare mac secret now s username password =
        LResp.invalidCredentials ∧
      LResp.status LResp.invalidCredentials = 400) := by
  cases hf : findByUsername s username with
  | none =>
    constructor
    · constructor
      · rintro ⟨tk, htk⟩
        simp [login, hf] at htk
      · rintro ⟨u, hu, _⟩
        cases hu
    · intro _
      refine ⟨?_, rfl⟩
      simp [login, hf]
  | some u =>
    cases hb : bcompare password u.password with
    | true =>
      constructor
      · constructor
        · intro _
          exact ⟨u, rfl, hb⟩
        · rintro ⟨u2, hu2, hb2⟩
          exact ⟨jwtSign mac secret now u.uid, by simp [login, hf, hb]⟩
      · intro hn
        exact absurd ⟨u, rfl, hb⟩ hn
    | false =>
      constructor
      · constructor
        · rintro ⟨tk, htk⟩
          simp [login, hf, hb] at htk
        · rintro ⟨u2, hu2, hb2⟩
          injection hu2 with hu3
          rw [← hu3, hb] at hb2
          cases hb2
      · intro _
        refine ⟨?_, rfl⟩
        simp [login, hf, hb]

/-- C1 witness: on the demo store, login with a wrong password is the
400 `Invalid credentials` response and login with the right password
succeeds with a token. -/
theorem C1_witness :
    login cmpDemo macDemo "k" 0 demoStore "alice" "wrong" =
      LResp.invalidCredentials ∧
    (∃ tk, login cmpDemo macDemo "k" 0 demoStore "alice" "pw" =
      LResp.ok tk) := by
  constructor
  · have hn : ¬ ∃ u, findByUsername demoStore "alice" = some u ∧
        cmpDemo "wrong" u.password = true := by
      rintro ⟨u, hu, hb⟩
      have hd : findByUsername demoStore "alice" = some demoUser := by decide
      rw [hd] at hu
      injection hu with hu2
      rw [← hu2] at hb
      exact absurd hb (by decide)
    exact ((C1_login_success_iff_verify cmpDemo macDemo "k" 0 demoStore
      "alice" "wrong").2 hn).1
  · exact (C1_login_success_iff_verify cmpDemo macDemo "k" 0 demoStore
      "alice" "pw").1.mpr ⟨demoUser, by decide, by decide⟩

/-- C2 counterexample: in the variant `src/unnamed/part_001`, signup
stores the submitted raw password verbatim as the record's `password`
field, so the raw password does appear in stored state. -/
theorem C2_counterexample :
    (signupV1 [] 1 "alice" "pw" "a@x.com").1 = SResp.ok ∧
    (signupV1 [] 1 "alice" "pw" "a@x.com").2 =
      [⟨1, "alice", "pw", "a@x.com"⟩] ∧
    (⟨1, "alice", "pw", "a@x.com"⟩ : UserRec).password = "pw" := by
  decide

/-- C2 (amended to the mainline variant `src/index.js`): every record in
the post-signup store either predates the request or carries the bcrypt
hash of the submitted password as its `password` field, and the token
minted by login carries only the user id, the expiry and the MAC — no
password field exists in its payload. -/
theorem C2_mainline_never_stores_raw
    (bhash : String → String) (s : Store) (newId : Nat) (u p e : String) :
    (∀ r ∈ (signup bhash s newId (some u) (some p) (some e)).2,
      r ∈ s ∨ r.password = bhash p) ∧
    (∀ (mac : Mac) (secret : String) (now uid : Nat),
      decodeToken (jwtSign mac secret now uid) =
        some ⟨uid, now + thirtyDays, mac secret uid (now + thirtyDays)⟩) := by
  constructor
  · intro r hr
    cases hq : findByUsernameQ s (some u) with
    | some x =>
      simp [signup, hq] at hr
      exact Or.inl hr
    | none =>
      cases hs : saveUser s ⟨newId, u, bhash p, e⟩ with
      | error v =>
        simp [signup, hq, hs] at hr
        exact Or.inl hr
      | ok s2 =>
        have hs2 : s2 = s ++ [⟨newId, u, bhash p, e⟩] := by
          unfold saveUser at hs
          by_cases hc : s.any
              (fun x => x.username == u || x.email == e) = true
          · rw [if_pos hc] at hs; cases hs
          · rw [if_neg hc] at hs; injection hs with hs3; exact hs3.symm
        simp [signup, hq, hs] at hr
        rw [hs2] at hr
        rcases List.mem_append.mp hr with h1 | h2
        · exact Or.inl h1
        · simp at h2
          subst h2
          exact Or.inr rfl
  · intro mac secret now uid
    exact decodeToken_encodeToken _

/-- C2 witness: the record created by a concrete mainline signup carries
the hash of the password, and a concrete minted token decodes to a
payload holding only the id, expiry and MAC. -/
theorem C2_witness :
    ((⟨1, "alice", hashDemo "pw", "a@x.com"⟩ : UserRec) ∈ ([] : Store) ∨
      (⟨1, "alice", hashDemo "pw", "a@x.com"⟩ : UserRec).password =
        hashDemo "pw") ∧
    decodeToken (jwtSign macDemo "k" 0 7) =
      some ⟨7, 0 + thirtyDays, macDemo "k" 7 (0 + thirtyDays)⟩ := by
  have h := C2_mainline_never_stores_raw hashDemo [] 1 "alice" "pw" "a@x.com"
  exact ⟨h.1 ⟨1, "alice", hashDemo "pw", "a@x.com"⟩ (by decide),
    h.2 macDemo "k" 0 7⟩

/-- C3: when a username is absent from the store (and, the payload being
valid, its email is fresh too), signup succeeds and appends exactly one
record; a second signup with the same username answers 400
`User already exists` and leaves the store unchanged. -/
theorem C3_signup_once_then_duplicate
    (bhash : String → String) (s : Store) (newId : Nat) (u p e : String)
    (hu : findByUsername s u = none)
    (he : ∀ r ∈ s, r.email ≠ e) :
    (signup bhash s newId (some u) (some p) (some e)).1 = SResp.ok ∧
    SResp.status SResp.ok = 200 ∧
    (signup bhash s newId (some u) (some p) (some e)).2 =
      s ++ [⟨newId, u, bhash p, e⟩] ∧
    (∀ (bh2 : String → String) (id2 : Nat) (p2 e2 : Option String),
      (signup bh2 (s ++ [⟨newId, u, bhash p, e⟩]) id2 (some u) p2 e2).1 =
        SResp.userExists ∧
      SResp.status SResp.userExists = 400 ∧
      (signup bh2 (s ++ [⟨newId, u, bhash p, e⟩]) id2 (some u) p2 e2).2 =
        s ++ [⟨newId, u, bhash p, e⟩]) := by
  have hu2 : ∀ x ∈ s, x.username ≠ u := (findByUsername_eq_none_iff s u).mp hu
  have hsave : saveUser s ⟨newId, u, bhash p, e⟩ =
      Except.ok (s ++ [⟨newId, u, bhash p, e⟩]) :=
    saveUser_ok s _ (fun x hx => hu2 x hx) (fun x hx => he x hx)
  have hfind : findByUsername (s ++ [⟨newId, u, bhash p, e⟩]) u =
      some ⟨newId, u, bhash p, e⟩ :=
    findByUsername_append_last s _ hu
  refine ⟨?_, rfl, ?_, ?_⟩
  · simp [signup, findByUsernameQ, hu, hsave]
  · simp [signup, findByUsernameQ, hu, hsave]
  · intro bh2 id2 p2 e2
    refine ⟨?_, rfl, ?_⟩ <;> simp [signup, findByUsernameQ, hfind]

/-- C3 witness: a concrete first signup succeeds and the repeat with the
same username is rejected with `User already exists`. -/
theorem C3_witness :
    (signup hashDemo [] 1 (some "alice") (some "pw") (some "a@x.com")).1 =
      SResp.ok ∧
    (signup hashDemo ([] ++ [⟨1, "alice", hashDemo "pw", "a@x.com"⟩]) 2
      (some "alice") (some "pw") (some "b@y.com")).1 = SResp.userExists := by
  have h := C3_signup_once_then_duplicate hashDemo [] 1 "alice" "pw" "a@x.com"
    (by decide) (by simp)
  exact ⟨h.1, (h.2.2.2 hashDemo 2 (some "pw") (some "b@y.com")).1⟩

/-- C7 counterexample: a signup whose email is already stored but whose
username is fresh passes the `findOne({username})` check, then the
unique email index rejects the insert inside `save()`, and the `catch`
answers the generic 500 `Something went wrong` — not the 400
`User already exists` conflict the claim asserts. -/
theorem C7_counterexample :
    (signup hashDemo demoStore 2 (some "bob") (some "pw")
      (some "a@x.com")).1 = SResp.serverError ∧
    SResp.status (signup hashDemo demoStore 2 (some "bob") (some "pw")
      (some "a@x.com")).1 = 500 ∧
    (signup hashDemo demoStore 2 (some "bob") (some "pw")
      (some "a@x.com")).1 ≠ SResp.userExists := by
  decide

/-- C7 (amended): for every signup whose email is already present while
the username is new, the insert fails with the duplicate-key conflict
and the client receives the generic 500 server error, not the 400
conflict response; the store is unchanged. -/
theorem C7_duplicate_email_500
    (bhash : String → String) (s : Store) (newId : Nat) (u p e : String)
    (hu : findByUsername s u = none)
    (he : ∃ r ∈ s, r.email = e) :
    (signup bhash s newId (some u) (some p) (some e)).1 =
      SResp.serverError ∧
    SResp.status SResp.serverError = 500 ∧
    (signup bhash s newId (some u) (some p) (some e)).1 ≠
      SResp.userExists ∧
    (signup bhash s newId (some u) (some p) (some e)).2 = s := by
  have hsave : saveUser s ⟨newId, u, bhash p, e⟩ = Except.error () :=
    saveUser_error s _
      (by rcases he with ⟨r, hr, hre⟩; exact ⟨r, hr, Or.inr hre⟩)
  refine ⟨?_, rfl, ?_, ?_⟩ <;> simp [signup, findByUsernameQ, hu, hsave]

/-- C7 witness: the amended statement evaluated at the demo store, whose
single record already holds the submitted email. -/
theorem C7_witness :
    (signup hashDemo demoStore 3 (some "carol") (some "pw2")
      (some "a@x.com")).1 = SResp.serverError ∧
    (signup hashDemo demoStore 3 (some "carol") (some "pw2")
      (some "a@x.com")).2 = demoStore := by
  have h := C7_duplicate_email_500 hashDemo demoStore 3 "carol" "pw2"
    "a@x.com" (by decide) ⟨demoUser, by decide, by decide⟩
  exact ⟨h.1, h.2.2.2⟩

/-- C10 counterexample: on a non-empty store, a signup request missing
the username makes `findOne({username: undefined})` match the first
stored user (Mongoose strips the undefined filter value), so the
response is the 400 `User already exists` conflict — not the claimed
500, and not produced by a duplicate of any submitted username. -/
theorem C10_counterexample :
    (signup hashDemo demoStore 2 none (some "pw") (some "b@x.com")).1 =
      SResp.userExists ∧
    SResp.status (signup hashDemo demoStore 2 none (some "pw")
      (some "b@x.com")).1 = 400 ∧
    (signup hashDemo demoStore 2 none (some "pw") (some "b@x.com")).1 ≠
      SResp.serverError := by
  decide

/-- C10 (amended): signup performs no presence validation of its own —
a request missing the password (whose username lookup misses) gets 500
from the throwing hash step; a request missing the email (username new)
gets 500 from required-field validation at `save()`; a request missing
the username gets 500 from that validation only on an empty store,
while on a non-empty store the undefined-stripped `findOne` filter
matches the first stored user and the response is the 400
`User already exists` conflict; so 400 arises exactly when the
(possibly undefined-stripped) username lookup hits. -/
theorem C10_signup_validation_mongoose
    (bhash : String → String) (s : Store) (newId : Nat) :
    (∀ (u e : Option String), findByUsernameQ s u = none →
      (signup bhash s newId u none e).1 = SResp.serverError ∧
      SResp.status SResp.serverError = 500) ∧
    (∀ (p e : Option String),
      (signup bhash ([] : Store) newId none p e).1 = SResp.serverError) ∧
    (∀ (p e : Option String), s ≠ [] →
      (signup bhash s newId none p e).1 = SResp.userExists ∧
      SResp.status SResp.userExists = 400) ∧
    (∀ (u p : String), findByUsername s u = none →
      (signup bhash s newId (some u) (some p) none).1 =
        SResp.serverError) ∧
    (∀ (u p e : Option String),
      (signup bhash s newId u p e).1 = SResp.userExists →
      ∃ r, findByUsernameQ s u = some r) := by
  refine ⟨?_, ?_, ?_, ?_, ?_⟩
  · intro u e hq
    exact ⟨by simp [signup, hq], rfl⟩
  · intro p e
    cases p with
    | none => simp [signup, findByUsernameQ]
    | some p0 => cases e <;> simp [signup, findByUsernameQ]
  · intro p e hne
    cases s with
    | nil => exact absurd rfl hne
    | cons x xs =>
      refine ⟨?_, rfl⟩
      simp [signup, findByUsernameQ]
  · intro u p hu
    simp [signup, findByUsernameQ, hu]
  · intro u p e hres
    cases hq : findByUsernameQ s u with
    | some r => exact ⟨r, rfl⟩
    | none =>
      exfalso
      cases p with
      | none => simp [signup, hq] at hres
      | some p0 =>
        cases u with
        | none => cases e <;> simp [signup, hq] at hres
        | some u0 =>
          cases e with
          | none => simp [signup, hq] at hres
          | some e0 =>
            cases hs : saveUser s ⟨newId, u0, bhash p0, e0⟩ with
            | error v => simp [signup, hq, hs] at hres
            | ok s2 => simp [signup, hq, hs] at hres

/-- C10 witness: the amended branches evaluated concretely — missing
password, missing username on the empty store, and missing email all
answer 500; missing username on the non-empty demo store answers 400;
and a concrete 400 comes with the lookup hit that produced it. -/
theorem C10_witness :
    (signup hashDemo [] 1 (some "bob") none (some "b@x.com")).1 =
      SResp.serverError ∧
    (signup hashDemo [] 1 none (some "pw") (some "b@x.com")).1 =
      SResp.serverError ∧
    (signup hashDemo demoStore 1 none (some "pw") (some "b@x.com")).1 =
      SResp.userExists ∧
    (signup hashDemo demoStore 1 (some "bob") (some "pw") none).1 =
      SResp.serverError ∧
    (∃ r, findByUsernameQ demoStore (some "alice") = some r) := by
  have h1 := C10_signup_validation_mongoose hashDemo [] 1
  have h2 := C10_signup_validation_mongoose hashDemo demoStore 1
  exact ⟨(h1.1 (some "bob") (some "b@x.com") (by decide)).1,
    h1.2.1 (some "pw") (some "b@x.com"),
    (h2.2.2.1 (some "pw") (some "b@x.com") (by decide)).1,
    h2.2.2.2.1 "bob" "pw" (by decide),
    h2.2.2.2.2 (some "alice") (some "pw") (some "c@z.com") (by decide)⟩

theorem jwtVerify_encodeToken (mac : Mac) (secret : String) (now : Nat)
    (t : Token) :
    jwtVerify mac secret now (encodeToken t) =
      if t.sig = mac secret t.id t.exp then
        (if t.exp ≤ now then Except.error VerifyErr.expired
         else Except.ok t.id)
      else Except.error VerifyErr.invalidSig := by
  unfold jwtVerify
  rw [decodeToken_encodeToken]

/-- C4: a token issued at login for a user, presented immediately to the
protected route as `Authorization: Bearer <token>`, is accepted and the
response's userId is that user's stored identifier. -/
theorem C4_token_roundtrip
    (bcompare : String → String → Bool) (mac : Mac) (secret : String)
    (now : Nat) (s : Store) (username password : String) (u : UserRec)
    (hf : findByUsername s username = some u)
    (hb : bcompare password u.password = true) :
    login bcompare mac secret now s username password =
      LResp.ok (jwtSign mac secret now u.uid) ∧
    getProtected mac secret now
      (some (String.append "Bearer " (jwtSign mac secret now u.uid))) =
      PResp.ok u.uid := by
  constructor
  · simp [login, hf, hb]
  · rw [getProtected_bearer mac secret now (jwtSign mac secret now u.uid)
      (space_not_mem_encodeToken _) (encodeToken_ne_empty _)]
    rw [jwtVerify_jwtSign]

/-- C4 witness: the round trip evaluated on the demo store. -/
theorem C4_witness :
    login cmpDemo macDemo "k" 0 demoStore "alice" "pw" =
      LResp.ok (jwtSign macDemo "k" 0 demoUser.uid) ∧
    getProtected macDemo "k" 0
      (some (String.append "Bearer " (jwtSign macDemo "k" 0 demoUser.uid))) =
      PResp.ok demoUser.uid :=
  C4_token_roundtrip cmpDemo macDemo "k" 0 demoStore "alice" "pw" demoUser
    (by decide) (by decide)

/-- C5: on the protected route, a missing header or missing token is
403; a present token whose signature is wrong (in particular with any
single bit of the signature flipped) or which is expired is 401 with no
claims; only a valid token is 200 with the identity claim.  The final
conjunct records the same contract for the `part_001` variant, whose
token is the raw header. -/
theorem C5_protected_statuses (mac : Mac) (secret : String) (now : Nat) :
    (getProtected mac secret now none = PResp.tokenMissing ∧
      PResp.status PResp.tokenMissing = 403) ∧
    getProtected mac secret now (some "") = PResp.tokenMissing ∧
    (∀ h : String, h ≠ "" → (jsSplitSpace h)[1]? = none →
      getProtected mac secret now (some h) = PResp.tokenMalformed ∧
      PResp.status PResp.tokenMalformed = 403) ∧
    (∀ t : Token, t.sig ≠ mac secret t.id t.exp →
      getProtected mac secret now
        (some (String.append "Bearer " (encodeToken t))) =
        PResp.invalidToken ∧
      PResp.status PResp.invalidToken = 401) ∧
    (∀ uid texp i : Nat, i < (mac secret uid texp).length →
      getProtected mac secret now
        (some (String.append "Bearer "
          (encodeToken ⟨uid, texp, flipAt (mac secret uid texp) i⟩))) =
        PResp.invalidToken) ∧
    (∀ uid texp : Nat, texp ≤ now →
      getProtected mac secret now
        (some (String.append "Bearer "
          (encodeToken ⟨uid, texp, mac secret uid texp⟩))) =
        PResp.invalidToken) ∧
    (∀ uid texp : Nat, now < texp →
      getProtected mac secret now
        (some (String.append "Bearer "
          (encodeToken ⟨uid, texp, mac secret uid texp⟩))) =
        PResp.ok uid) ∧
    (getProtectedV1 mac secret now none = PResp.tokenMissing ∧
      (∀ t : Token, t.sig ≠ mac secret t.id t.exp →
        getProtectedV1 mac secret now (some (encodeToken t)) =
          PResp.invalidToken) ∧
      (∀ uid texp : Nat, now < texp →
        getProtectedV1 mac secret now
          (some (encodeToken ⟨uid, texp, mac secret uid texp⟩)) =
          PResp.ok uid)) := by
  have hbear : ∀ t : Token,
      getProtected mac secret now
        (some (String.append "Bearer " (encodeToken t))) =
        match jwtVerify mac secret now (encodeToken t) with
        | Except.error _ => PResp.invalidToken
        | Except.ok uid => PResp.ok uid :=
    fun t => getProtected_bearer mac secret now (encodeToken t)
      (space_not_mem_encodeToken t) (encodeToken_ne_empty t)
  have hsig401 : ∀ t : Token, t.sig ≠ mac secret t.id t.exp →
      getProtected mac secret now
        (some (String.append "Bearer " (encodeToken t))) =
        PResp.invalidToken := by
    intro t hsig
    rw [hbear t, jwtVerify_encodeToken, if_neg hsig]
  refine ⟨⟨rfl, rfl⟩, rfl, ?_, ?_, ?_, ?_, ?_, rfl, ?_, ?_⟩
  · intro h hne hnone
    refine ⟨?_, rfl⟩
    simp only [getProtected, if_neg hne, hnone]
  · intro t hsig
    exact ⟨hsig401 t hsig, rfl⟩
  · intro uid texp i hi
    exact hsig401 ⟨uid, texp, flipAt (mac secret uid texp) i⟩ (flipAt_ne hi)
  · intro uid texp hexp
    rw [hbear ⟨uid, texp, mac secret uid texp⟩, jwtVerify_encodeToken,
      if_pos rfl, if_pos hexp]
  · intro uid texp hexp
    have hv : jwtVerify mac secret now
        (encodeToken ⟨uid, texp, mac secret uid texp⟩) = Except.ok uid := by
      rw [jwtVerify_encodeToken, if_pos rfl,
        if_neg (Nat.not_le_of_lt hexp)]
    rw [hbear ⟨uid, texp, mac secret uid texp⟩, hv]
  · intro t hsig
    simp only [getProtectedV1, if_neg (encodeToken_ne_empty t),
      jwtVerify_encodeToken, if_neg hsig]
  · intro uid texp hexp
    have hv2 : jwtVerify mac secret now
        (encodeToken ⟨uid, texp, mac secret uid texp⟩) = Except.ok uid := by
      rw [jwtVerify_encodeToken, if_pos rfl,
        if_neg (Nat.not_le_of_lt hexp)]
    simp only [getProtectedV1,
      if_neg (encodeToken_ne_empty (⟨uid, texp, mac secret uid texp⟩ : Token)),
      hv2]

/-- C5 witness: each branch of the protected-route contract evaluated on
concrete tokens under the demo MAC. -/
theorem C5_witness :
    getProtected macDemo "k" 0 none = PResp.tokenMissing ∧
    getProtected macDemo "k" 0 (some "xyz") = PResp.tokenMalformed ∧
    getProtected macDemo "k" 0
      (some (String.append "Bearer " (encodeToken ⟨1, 5, []⟩))) =
      PResp.invalidToken ∧
    getProtected macDemo "k" 0
      (some (String.append "Bearer "
        (encodeToken ⟨1, 5, flipAt (macDemo "k" 1 5) 0⟩))) =
      PResp.invalidToken ∧
    getProtected macDemo "k" 5
      (some (String.append "Bearer "
        (encodeToken ⟨1, 5, macDemo "k" 1 5⟩))) = PResp.invalidToken ∧
    getProtected macDemo "k" 0
      (some (String.append "Bearer "
        (encodeToken ⟨1, 5, macDemo "k" 1 5⟩))) = PResp.ok 1 ∧
    getProtectedV1 macDemo "k" 0
      (some (encodeToken ⟨1, 5, macDemo "k" 1 5⟩)) = PResp.ok 1 := by
  obtain ⟨c1, c2, c3, c4, c5, c6, c7, c8⟩ :=
    C5_protected_statuses macDemo "k" 0
  obtain ⟨d1, d2, d3, d4, d5, d6, d7, d8⟩ :=
    C5_protected_statuses macDemo "k" 5
  refine ⟨c1.1, (c3 "xyz" (by decide) (by decide)).1,
    (c4 ⟨1, 5, []⟩ (by decide)).1,
    c5 1 5 0 (by decide),
    d6 1 5 (by decide),
    c7 1 5 (by decide),
    c8.2.2 1 5 (by decide)⟩

/-- C6: every token issued at login expires exactly 30 days after
issuance, and verification at any time after the expiry takes the
rejection branch and never yields claims. -/
theorem C6_expiry_thirty_days (mac : Mac) (secret : String) :
    (∀ now uid : Nat,
      decodeToken (jwtSign mac secret now uid) =
        some ⟨uid, now + thirtyDays, mac secret uid (now + thirtyDays)⟩ ∧
      thirtyDays = 30 * 24 * 60 * 60) ∧
    (∀ (t : Nat) (str : String) (tk : Token),
      decodeToken str = some tk → tk.exp < t →
      ∀ uid : Nat, jwtVerify mac secret t str ≠ Except.ok uid) := by
  constructor
  · intro now uid
    exact ⟨decodeToken_encodeToken _, rfl⟩
  · intro t str tk hdec hexp uid heq
    have hred : jwtVerify mac secret t str =
        if tk.sig = mac secret tk.id tk.exp then
          (if tk.exp ≤ t then Except.error VerifyErr.expired
           else Except.ok tk.id)
        else Except.error VerifyErr.invalidSig := by
      unfold jwtVerify
      rw [hdec]
    rw [hred] at heq
    by_cases hsig : tk.sig = mac secret tk.id tk.exp
    · rw [if_pos hsig, if_pos (Nat.le_of_lt hexp)] at heq
      cases heq
    · rw [if_neg hsig] at heq
      cases heq

/-- C6 witness: a concrete token issued at time 0 decodes with expiry
`0 + thirtyDays`, and verifying it one second after that expiry does not
yield its claims. -/
theorem C6_witness :
    decodeToken (jwtSign macDemo "k" 0 7) =
      some ⟨7, 0 + thirtyDays, macDemo "k" 7 (0 + thirtyDays)⟩ ∧
    jwtVerify macDemo "k" (thirtyDays + 1) (jwtSign macDemo "k" 0 7) ≠
      Except.ok 7 := by
  have h := C6_expiry_thirty_days macDemo "k"
  refine ⟨(h.1 0 7).1, ?_⟩
  exact h.2 (thirtyDays + 1) (jwtSign macDemo "k" 0 7)
    ⟨7, 0 + thirtyDays, macDemo "k" 7 (0 + thirtyDays)⟩
    (decodeToken_encodeToken _)
    (by show 0 + thirtyDays < thirtyDays + 1; omega) 7

/-- C8 counterexample: the claim quantifies over every variant, but the
`part_001` variant's signing secret is the string literal `secretKey`
embedded in the source (and `part_000`'s is the literal
`MY_SECRET_CODE`), not external configuration. -/
theorem C8_counterexample :
    SecretSource.isExternal part001SignSecret = false ∧
    part001SignSecret = SecretSource.literal "secretKey" ∧
    SecretSource.isExternal part000SignSecret = false := by
  decide

/-- C8 (amended): only the mainline variant loads its signing secret
from external configuration (`process.env.JWT_SECRET`), with issuance
and verification sharing that one secret; the `part_001` variant
hardcodes the literal `secretKey` (shared by its sign and verify), and
the `part_000` variant hardcodes the literal `MY_SECRET_CODE`. -/
theorem C8_secret_sources :
    mainlineSignSecret = SecretSource.env "JWT_SECRET" ∧
    mainlineVerifySecret = mainlineSignSecret ∧
    SecretSource.isExternal mainlineSignSecret = true ∧
    part001VerifySecret = part001SignSecret ∧
    part001SignSecret = SecretSource.literal "secretKey" ∧
    part000SignSecret = SecretSource.literal "MY_SECRET_CODE" := by
  decide

/-- C9: in the mainline protected route the token is
`authHeader.split(" ")[1]`, so a bare-token Authorization header with no
space yields 403 `Token missing or malformed` — even for a header that
is exactly a token which verifies successfully. -/
theorem C9_bare_token_403 (mac : Mac) (secret : String) (now : Nat) :
    (∀ h : String, h ≠ "" → ' ' ∉ h.data →
      getProtected mac secret now (some h) = PResp.tokenMalformed ∧
      PResp.status PResp.tokenMalformed = 403) ∧
    (∀ t : Token, t.sig = mac secret t.id t.exp → now < t.exp →
      jwtVerify mac secret now (encodeToken t) = Except.ok t.id ∧
      getProtected mac secret now (some (encodeToken t)) =
        PResp.tokenMalformed) := by
  constructor
  · intro h hne hs
    exact ⟨getProtected_nospace mac secret now h hne hs, rfl⟩
  · intro t hsig hexp
    constructor
    · rw [jwtVerify_encodeToken, if_pos hsig,
        if_neg (Nat.not_le_of_lt hexp)]
    · exact getProtected_nospace mac secret now _
        (encodeToken_ne_empty t) (space_not_mem_encodeToken t)

/-- C9 witness: a concrete spaceless header gets 403, and a concrete
valid bare token still gets 403 despite verifying to its claims. -/
theorem C9_witness :
    getProtected macDemo "k" 0 (some "abc") = PResp.tokenMalformed ∧
    jwtVerify macDemo "k" 0 (encodeToken ⟨1, 5, macDemo "k" 1 5⟩) =
      Except.ok 1 ∧
    getProtected macDemo "k" 0 (some (encodeToken ⟨1, 5, macDemo "k" 1 5⟩)) =
      PResp.tokenMalformed := by
  have h := C9_bare_token_403 macDemo "k" 0
  exact ⟨(h.1 "abc" (by decide) (by decide)).1,
    (h.2 ⟨1, 5, macDemo "k" 1 5⟩ rfl (by decide)).1,
    (h.2 ⟨1, 5, macDemo "k" 1 5⟩ rfl (by decide)).2⟩
